import Mathlib

/-!
Verification of the ServeML model deployment pipeline.

This file gives a shallow embedding, in Lean 4, of the deployment pipeline of
the ServeML repository and proves properties of it:

* `backend/services/model_validator.py` — artifact and manifest validation
  (`ModelValidator.validate_model`, `_validate_sklearn_model`,
  `_validate_pytorch_model`, `_validate_tensorflow_model`,
  `validate_requirements`);
* `backend/app.py` — the deployment orchestrator: the in-memory `deployments`
  dict and the operations `deploy_model`, `deploy_model_background`,
  `get_deployment`, `list_deployments`, `delete_deployment`;
* `backend/services/docker_builder.py` — `DockerBuilder.build_image`;
* `backend/templates/wrapper.py` — the Lambda inference adapter
  (`load_model`, `lambda_handler`).

Python strings are embedded as `List Char` (`Str`), with structurally
recursive helpers mirroring the Python string operations actually used, so
every definition evaluates inside the kernel.  Effects the Python code
performs through the interpreter or external libraries (pickle, torch,
tensorflow, the file system, Docker) are parameters of the embedding: the
validator takes a `Loader` describing the outcome of the deserialization
calls, and the inference adapter takes a `HandlerEnv` describing the outcome
of the fallible library calls.  Control flow, field updates and all string
or list computations are translated directly from the source.
-/

namespace ServeML

/-- Python strings are embedded as lists of characters so that all string
operations reduce inside the kernel. -/
abbrev Str : Type := List Char

/-- Coercion from a Lean string literal to the embedded string type. -/
def strOf (s : String) : Str := s.data

/-- Python `s.endswith(suf)` (also `str.endswith` with a tuple is expanded
into a disjunction of calls of this). -/
def endsWithS (s suf : Str) : Bool := (s.drop (s.length - suf.length)) == suf

/-- Python `s.startswith(pre)`. -/
def startsWithS (s pre : Str) : Bool := (s.take pre.length) == pre

/-- ASCII lower-casing of one character, the only case Python's `str.lower`
meets in this code base (file extensions). -/
def lowerChar (c : Char) : Char :=
  if 'A' ≤ c ∧ c ≤ 'Z' then Char.ofNat (c.toNat + 32) else c

/-- Python `s.lower()` on ASCII strings. -/
def toLowerS (s : Str) : Str := s.map lowerChar

/-- Whitespace test used by Python `str.strip` / `str.split`. -/
def isWs (c : Char) : Bool := c = ' ' ∨ c = '\t' ∨ c = '\n' ∨ c = '\r'

/-- Python `s.strip()`: drop leading and trailing whitespace. -/
def stripS (s : Str) : Str :=
  ((s.dropWhile isWs).reverse.dropWhile isWs).reverse

/-- Worker for `splitOnS`, structurally recursive on a fuel argument so that
it reduces inside the kernel; every step consumes at least one character, so
fuel `s.length` is enough. -/
def splitGo (sep : Str) : Nat → Str → List Str
  | _, [] => [[]]
  | 0, s => [s]
  | fuel + 1, c :: rest =>
      if startsWithS (c :: rest) sep then
        [] :: splitGo sep fuel ((c :: rest).drop sep.length)
      else
        match splitGo sep fuel rest with
        | [] => [[c]]
        | t :: ts => (c :: t) :: ts

/-- Python `s.split(sep)` for a non-empty separator: split at every
non-overlapping leftmost occurrence of `sep`. -/
def splitOnS (sep : Str) (s : Str) : List Str :=
  if sep = [] then [s] else splitGo sep s.length s

/-- Number of occurrences of `sep` in `s` is `(splitOnS sep s).length - 1`;
Python `sep in s` is therefore `2 ≤ (splitOnS sep s).length`. -/
def containsSub (s sep : Str) : Bool := 2 ≤ (splitOnS sep s).length

/-- Python `pathlib.Path(p).suffix` / second component of
`os.path.splitext(p)`: the part of the name from the last dot on.  (The
Python functions additionally ignore a dot that starts the base name; no
caller in this code base passes such a name.) -/
def pathSuffix (p : Str) : Str :=
  match splitOnS (strOf ".") p with
  | [] => []
  | [_] => []
  | parts => '.' :: parts.getLastD []

/-! ## Artifact validator (`backend/services/model_validator.py`) -/

/-- The `metadata` dict built by `ModelValidator.validate_model`
(model_validator.py lines 26-33).  `size_mb` is `file_size / (1024 * 1024)`;
the Python float division is exact here (division of an integer by a power of
two), so it is embedded as a rational.  `total_params` is the extra key the
TensorFlow branch adds (line 195). -/
structure Metadata where
  framework : Option Str
  model_type : Option Str
  input_shape : Option (List Nat)
  output_shape : Option (List Nat)
  size_mb : ℚ
  errors : List Str
  total_params : Option Nat
  deriving DecidableEq

/-- Fresh metadata for a file of `sizeBytes` bytes, after the
`Path(model_path).stat().st_size` call succeeded. -/
def initMeta (sizeBytes : Nat) : Metadata :=
  { framework := none, model_type := none, input_shape := none,
    output_shape := none, size_mb := (sizeBytes : ℚ) / (1024 * 1024),
    errors := [], total_params := none }

/-- Capability surface of an object obtained from `pickle.load`, as consulted
by `_validate_sklearn_model`: its class name, whether it has the attributes
the validator probes for, and the behaviour of its `predict` method on a
`(1, n)` random array (`predictOk n` — whether the call returns without
raising; `predictShape n` — the shape of the returned array). -/
structure SkModel where
  typeName : Str
  hasPredictAttr : Bool
  nFeaturesIn : Option Nat
  nFeatures : Option Nat
  predictOk : Nat → Bool
  predictShape : Nat → List Nat
  hasPredictProba : Bool
  hasScore : Bool

/-- Result of `torch.load` plus the behaviour of calling the loaded model on
a random tensor of batch 1 and the given per-example shape
(`_validate_pytorch_model`). -/
structure PtModel where
  typeName : Str
  isStateDict : Bool
  forwardOk : List Nat → Bool
  forwardShape : List Nat → List Nat

/-- Result of `tf.keras.models.load_model` as consulted by
`_validate_tensorflow_model`: class name and the declared shapes (with their
leading batch dimension, which the validator strips). -/
structure TfModel where
  typeName : Str
  inputShape : Option (List Nat)
  outputShape : Option (List Nat)
  countParams : Option Nat

/-- Outcomes of the deserialization calls the validator may make for one
artifact file: `pickle.load`, `torch.load` (with `import torch`), and
`tf.keras.models.load_model` (with `import tensorflow`).  An `Except.error`
carries the exception text.  A failing `model.eval()` call in the PyTorch
branch is folded into `torchLoad`: both are caught by the same handler and
produce the same error entry. -/
structure Loader where
  pickleLoad : Except Str SkModel
  torchAvailable : Bool
  torchLoad : Except Str PtModel
  tfAvailable : Bool
  tfLoad : Except Str TfModel

/-- The `' (Classifier)'` / `' (Regressor)'` suffix appended to `model_type`
(model_validator.py lines 100-103). -/
def skTypeTag (m : SkModel) : Str :=
  if m.hasPredictProba then strOf " (Classifier)"
  else if m.hasScore then strOf " (Regressor)"
  else []

/-- The fixed candidate input widths probed by the sklearn branch
(model_validator.py line 86). -/
def skProbeWidths : List Nat := [4, 10, 20, 100]

/-- Python `output.shape[1:] if len(output.shape) > 1 else (1,)`
(model_validator.py line 97). -/
def skOutputShape (shape : List Nat) : List Nat :=
  if shape.length > 1 then shape.drop 1 else [1]

/-- Shallow embedding of `ModelValidator._validate_sklearn_model`
(model_validator.py lines 59-112), given the outcome `lr` of `pickle.load`.
The inner `try` around the dummy-data test only logs a warning on failure,
so a failing `predict` never adds an error. -/
def validateSk (lr : Except Str SkModel) (md : Metadata) : Bool × Metadata :=
  match lr with
  | .error msg =>
      (false, { md with errors := md.errors ++ [strOf "Failed to load sklearn model: " ++ msg] })
  | .ok m =>
      let md := { md with framework := some (strOf "sklearn"),
                          model_type := some m.typeName }
      if !m.hasPredictAttr then
        (false, { md with errors := md.errors ++ [strOf "Model missing predict method"] })
      else
        let md := { md with input_shape :=
          (match m.nFeaturesIn with
           | some k => some [k]
           | none => m.nFeatures.map (fun k => [k])) }
        match md.input_shape with
        | some shape =>
            -- introspected width: X_test = np.random.randn(1, shape[0])
            let k := shape.headD 0
            if m.predictOk k then
              (true, { md with
                output_shape := some (skOutputShape (m.predictShape k)),
                model_type := some (m.typeName ++ skTypeTag m) })
            else
              -- predict raised: caught by the inner handler, warning only
              (true, md)
        | none =>
            match skProbeWidths.find? m.predictOk with
            | some k =>
                let md := { md with input_shape := some [k] }
                (true, { md with
                  output_shape := some (skOutputShape (m.predictShape k)),
                  model_type := some (m.typeName ++ skTypeTag m) })
            | none =>
                -- every probe raised; the loop leaves input_shape unset and
                -- the final predict is skipped: still valid
                (true, md)

/-- The fixed candidate per-example input shapes probed by the PyTorch branch
(model_validator.py line 138). -/
def ptProbeShapes : List (List Nat) :=
  [[3, 224, 224], [1, 28, 28], [10], [100], [784]]

/-- Shallow embedding of `ModelValidator._validate_pytorch_model`
(model_validator.py lines 114-172). -/
def validatePt (ld : Loader) (md : Metadata) : Bool × Metadata :=
  if !ld.torchAvailable then
    (false, { md with errors := md.errors ++
      [strOf "PyTorch not installed. Cannot validate .pt/.pth files."] })
  else
    match ld.torchLoad with
    | .error msg =>
        (false, { md with errors := md.errors ++
          [strOf "Failed to load PyTorch model: " ++ msg] })
    | .ok m =>
        let md := { md with framework := some (strOf "pytorch"),
                            model_type := some m.typeName }
        if m.isStateDict then
          (false, { md with errors := md.errors ++
            [strOf "Model is a state dict, not a full model. Please save the entire model."] })
        else
          match ptProbeShapes.find? m.forwardOk with
          | some shape =>
              (true, { md with input_shape := some shape,
                               output_shape := some ((m.forwardShape shape).drop 1) })
          | none =>
              (false, { md with errors := md.errors ++
                [strOf "Could not determine model input shape. Please ensure model accepts standard tensor inputs."] })

/-- Shallow embedding of `ModelValidator._validate_tensorflow_model`
(model_validator.py lines 174-204). -/
def validateTf (ld : Loader) (md : Metadata) : Bool × Metadata :=
  if !ld.tfAvailable then
    (false, { md with errors := md.errors ++
      [strOf "TensorFlow not installed. Cannot validate .h5/.keras files."] })
  else
    match ld.tfLoad with
    | .error msg =>
        (false, { md with errors := md.errors ++
          [strOf "Failed to load TensorFlow model: " ++ msg] })
    | .ok m =>
        (true, { md with
          framework := some (strOf "tensorflow"),
          model_type := some m.typeName,
          input_shape := m.inputShape.map (List.drop 1),
          output_shape := m.outputShape.map (List.drop 1),
          total_params := m.countParams })

/-- Shallow embedding of `ModelValidator.validate_model` (model_validator.py
lines 18-57): size gate first, then extension dispatch.  `sizeBytes` is the
result of the `stat` call; the error strings elide Python's numeric
interpolation. -/
def validate_model (ld : Loader) (model_path : Str) (sizeBytes : Nat) :
    Bool × Metadata :=
  let md := initMeta sizeBytes
  if md.size_mb > 500 then
    (false, { md with errors := md.errors ++ [strOf "Model too large (max 500MB)"] })
  else if endsWithS model_path (strOf ".pkl") then
    validateSk ld.pickleLoad md
  else if endsWithS model_path (strOf ".pt") || endsWithS model_path (strOf ".pth") then
    validatePt ld md
  else if endsWithS model_path (strOf ".h5") || endsWithS model_path (strOf ".keras") then
    validateTf ld md
  else
    (false, { md with errors := md.errors ++
      [strOf "Unsupported model format: " ++ pathSuffix model_path] })

/-- One entry of `metadata['packages']` produced by
`ModelValidator.validate_requirements`. -/
structure Pkg where
  name : Str
  version : Str
  deriving DecidableEq

/-- The `metadata` dict of `ModelValidator.validate_requirements`
(model_validator.py lines 227-231). -/
structure ReqMeta where
  packages : List Pkg
  warnings : List Str
  errors : List Str
  deriving DecidableEq

/-- The line loop of `ModelValidator.validate_requirements`
(model_validator.py lines 237-251).  A line in which `==` occurs more than
once makes the tuple unpacking `package, version = line.split('==')` raise
`ValueError`; the exception aborts the loop and lands in the `except` clause
(lines 260-262), which appends a hard error to whatever was accumulated so
far.  `version = 'range'` is recorded for range-constrained lines (name =
first whitespace-separated token) and `version = 'latest'` for bare names. -/
def reqLoop : List Str → ReqMeta → ReqMeta
  | [], md => md
  | l :: ls, md =>
      let line := stripS l
      if line = [] ∨ startsWithS line (strOf "#") = true then
        reqLoop ls md
      else if containsSub line (strOf "==") = true then
        match splitOnS (strOf "==") line with
        | [p, v] => reqLoop ls { md with packages := md.packages ++ [⟨p, v⟩] }
        | _ => { md with errors := md.errors ++
            [strOf "Failed to parse requirements: too many values to unpack (expected 2)"] }
      else if line.contains '>' = true ∨ line.contains '<' = true then
        reqLoop ls { md with
          warnings := md.warnings ++ [strOf "Package with version range: " ++ line],
          packages := md.packages ++ [⟨line.takeWhile (fun c => !isWs c), strOf "range"⟩] }
      else
        reqLoop ls { md with
          warnings := md.warnings ++ [strOf "Package without version: " ++ line],
          packages := md.packages ++ [⟨line, strOf "latest"⟩] }

/-- The conflicting-package rule (model_validator.py lines 253-256): if the
lower-cased package names contain both `tensorflow` and `tensorflow-gpu`, an
error is appended. -/
def conflictCheck (md : ReqMeta) : ReqMeta :=
  if ((md.packages.map (fun p => toLowerS p.name)).contains (strOf "tensorflow")
      && (md.packages.map (fun p => toLowerS p.name)).contains (strOf "tensorflow-gpu")) = true
  then { md with errors := md.errors ++ [strOf "Both tensorflow and tensorflow-gpu specified"] }
  else md

/-- Shallow embedding of `ModelValidator.validate_requirements`
(model_validator.py lines 224-262), on the list of raw lines of the file.
If the loop aborted with a parse error (the only way `reqLoop` adds an
error), the exception handler returns `False` with the accumulated metadata,
skipping the conflict check; otherwise the conflict rule runs and validity
is `errors == []`. -/
def validate_requirements (lines : List Str) : Bool × ReqMeta :=
  if (reqLoop lines ⟨[], [], []⟩).errors.isEmpty then
    ((conflictCheck (reqLoop lines ⟨[], [], []⟩)).errors.isEmpty,
     conflictCheck (reqLoop lines ⟨[], [], []⟩))
  else
    (false, reqLoop lines ⟨[], [], []⟩)

/-! ## Deployment orchestrator (`backend/app.py`)

The orchestrator keeps one entry per deployment id in the module-level
`deployments` dict.  Four code paths touch an entry:

* `deploy_model` (lines 195-290): validates the uploaded artifact; on
  validation failure it raises (no record is stored); on success it stores a
  record with status `"validating"` and enqueues `deploy_model_background`;
* `deploy_model_background` (lines 368-419): sets status `"building"`, runs
  the Docker build, then sets `"deploying"` (plus `docker_image`), sleeps,
  and sets `"active"` (plus `endpoint_url`); any exception raised between
  the `"building"` write and the `"deploying"` write is caught and sets
  status `"failed"` plus `error_message` (the statements after the
  `"deploying"` write are an `asyncio.sleep` and two guarded assignments,
  which do not raise `Exception`); every write is guarded by
  `if deployment_id in deployments`, so a deleted record is never
  re-created;
* `get_deployment` (lines 306-323): if the status is `"deploying"` and
  `(datetime.utcnow() - created_at).seconds > 30` it sets status `"active"`
  and `endpoint_url` — note `timedelta.seconds` is the seconds component
  (elapsed time modulo 24 h), not the total elapsed seconds;
* `delete_deployment` (lines 326-343): removes the entry from the dict.

The background task is decoupled from the creating request; each of its
observable writes is one event, so any interleaving with `get` and `delete`
is represented.  Timestamps are whole seconds.  Ids are generated by
`uuid.uuid4` and are never reused; this is captured by the per-id program
counter `BgPC`, which also serializes the background task's writes in their
program order.
-/

/-- Status strings stored in `deployments[id]["status"]`. -/
inductive Status where
  | validating
  | building
  | deploying
  | active
  | failed
  deriving DecidableEq

/-- Program counter of the (at most one) `deploy_model_background` task for
one deployment id: `idle` — id never submitted; `queued` — record stored
with status `"validating"`, task enqueued; `built` — the `"building"` write
has run; `deployed` — the `"deploying"` write has run; `done` — the task
finished (after the `"active"` or `"failed"` write), or the submission
failed validation and no task was ever enqueued. -/
inductive BgPC where
  | idle
  | queued
  | built
  | deployed
  | done
  deriving DecidableEq

/-- One entry of the `deployments` dict (app.py lines 260-270, plus the
`docker_image` key added at line 403).  `created_at` is in whole seconds
(the code stores an ISO-format timestamp and parses it back). -/
structure Record where
  id : Str
  name : Str
  status : Status
  created_at : Nat
  model_path : Str
  requirements_path : Str
  endpoint_url : Option Str
  error_message : Option Str
  model_metadata : Metadata
  docker_image : Option Str
  deriving DecidableEq

/-- Global state of the orchestrator: the `deployments` dict (as a lookup
function plus the insertion-ordered key list, which Python dicts maintain)
and the per-id background-task program counter. -/
structure PState where
  store : Str → Option Record
  pc : Str → BgPC
  dom : List Str

/-- Pointwise update of a lookup function. -/
def upd {α : Type} (f : Str → α) (k : Str) (v : α) : Str → α :=
  fun x => if x = k then v else f x

/-- The endpoint written on activation (app.py lines 321 and 411). -/
def endpointUrl (id : Str) : Str :=
  strOf "https://api.serveml.com/models/" ++ id ++ strOf "/predict"

/-- Observable transitions of the orchestrator.  `submit` carries the data
`deploy_model` stores and the model-validation verdict `ok`; the three `bg`
events are the consecutive guarded writes of `deploy_model_background`
(`bgBuildOk`/`bgBuildFail` are the build step's two outcomes); `getDep` and
`delDep` are the GET and DELETE endpoints. -/
inductive Event where
  | submit (id name mpath rpath : Str) (t : Nat) (md : Metadata) (ok : Bool)
  | bgBuilding (id : Str)
  | bgBuildOk (id : Str) (image : Str)
  | bgBuildFail (id : Str) (msg : Str)
  | bgActivate (id : Str)
  | getDep (id : Str) (now : Nat)
  | delDep (id : Str)

/-- The deployment id an event addresses. -/
def Event.key : Event → Str
  | .submit id _ _ _ _ _ _ => id
  | .bgBuilding id => id
  | .bgBuildOk id _ => id
  | .bgBuildFail id _ => id
  | .bgActivate id => id
  | .getDep id _ => id
  | .delDep id => id

/-- One orchestrator step.  Each branch is a direct translation of the
corresponding code path of app.py; the `pc` guards encode that ids are fresh
(`uuid4`) and that the background task's writes happen in program order. -/
def stepE (s : PState) (e : Event) : PState :=
  match e with
  | .submit id name mpath rpath t md ok =>
      if s.pc id = .idle then
        if ok then
          { store := upd s.store id (some
              { id := id, name := name, status := .validating, created_at := t,
                model_path := mpath, requirements_path := rpath,
                endpoint_url := none, error_message := none,
                model_metadata := md, docker_image := none }),
            pc := upd s.pc id .queued,
            dom := s.dom ++ [id] }
        else
          -- validation failed: deploy_model raises before storing anything
          { s with pc := upd s.pc id .done }
      else s
  | .bgBuilding id =>
      if s.pc id = .queued then
        { s with
          store := upd s.store id ((s.store id).map fun r => { r with status := .building }),
          pc := upd s.pc id .built }
      else s
  | .bgBuildOk id image =>
      if s.pc id = .built then
        { s with
          store := upd s.store id ((s.store id).map fun r =>
            { r with status := .deploying, docker_image := some image }),
          pc := upd s.pc id .deployed }
      else s
  | .bgBuildFail id msg =>
      if s.pc id = .built then
        { s with
          store := upd s.store id ((s.store id).map fun r =>
            { r with status := .failed, error_message := some msg }),
          pc := upd s.pc id .done }
      else s
  | .bgActivate id =>
      if s.pc id = .deployed then
        { s with
          store := upd s.store id ((s.store id).map fun r =>
            { r with status := .active, endpoint_url := some (endpointUrl id) }),
          pc := upd s.pc id .done }
      else s
  | .getDep id now =>
      match s.store id with
      | none => s
      | some r =>
          if r.status = .deploying ∧ (now - r.created_at) % 86400 > 30 then
            { s with store := upd s.store id (some
                { r with status := .active, endpoint_url := some (endpointUrl id) }) }
          else s
  | .delDep id =>
      match s.store id with
      | none => s
      | some _ => { s with store := upd s.store id none, dom := s.dom.erase id }

/-- The empty `deployments` dict at module load. -/
def initState : PState :=
  { store := fun _ => none, pc := fun _ => .idle, dom := [] }

/-- Run a sequence of observable transitions from the initial state. -/
def run (es : List Event) : PState := es.foldl stepE initState

/-- Body of GET `/api/v1/deployments/:id` (app.py lines 306-323): the record
returned after the possible in-place activation, or `none` for the 404
case. -/
def getDepResult (s : PState) (id : Str) (now : Nat) : Option Record :=
  (stepE s (.getDep id now)).store id

/-- Body of GET `/api/v1/deployments` (app.py lines 293-303): all current
records, sorted by `created_at` descending. -/
def listDeps (s : PState) : List (Str × Record) :=
  (s.dom.filterMap (fun id => (s.store id).map (fun r => (id, r)))).mergeSort
    (fun a b => decide (b.2.created_at ≤ a.2.created_at))

/-- Extend the observed status history of one id: append the current status
when it differs from the last observation (absence of the record observes
nothing). -/
def obsUpd (tr : List Status) (st : Option Status) : List Status :=
  match st with
  | none => tr
  | some st => if tr.getLast? = some st then tr else tr ++ [st]

/-- Run the events and accumulate the observed status history of `id`. -/
def runTr (es : List Event) (id : Str) : PState × List Status :=
  es.foldl
    (fun p e =>
      (stepE p.1 e, obsUpd p.2 (((stepE p.1 e).store id).map Record.status)))
    (initState, [])

/-- The sequence of distinct consecutive status values ever observable on
the record of `id` along a run. -/
def statusTrace (es : List Event) (id : Str) : List Status := (runTr es id).2

/-- The status histories the state machine allows: truncated prefixes of
validating → building → deploying → active, with failed reachable from
building. -/
def allowedTraces : List (List Status) :=
  [[],
   [.validating],
   [.validating, .building],
   [.validating, .building, .deploying],
   [.validating, .building, .deploying, .active],
   [.validating, .building, .failed]]

/-! ## Image builder (`backend/services/docker_builder.py`) and the
deploy-endpoint extension gate (`backend/app.py` lines 209-218) -/

/-- The extensions `deploy_model` accepts (app.py line 210). -/
def supportedExtensions : List Str :=
  [strOf ".pkl", strOf ".pt", strOf ".pth", strOf ".h5", strOf ".keras"]

/-- The `deploy_model` file-type gate (app.py lines 210-217):
`os.path.splitext(model_file.filename)[1].lower()` must be a supported
extension, otherwise the request is rejected with HTTP 400 before any record
is created. -/
def deployGateAccepts (filename : Str) : Bool :=
  supportedExtensions.contains (toLowerS (pathSuffix filename))

/-- The build context `DockerBuilder.build_image` assembles
(docker_builder.py lines 37-63): destination name in the scratch directory
paired with the copied source, plus the image tag.  The artifact is always
staged as `model.pkl` (line 41) and the wrapper as `handler.py` (line 50);
the `framework` argument of `build_image` is accepted but never read. -/
structure BuildPlan where
  contextFiles : List (Str × Str)
  imageName : Str

/-- Shallow embedding of the context-assembly part of
`DockerBuilder.build_image` for a builder constructed with the default
`templates_dir`. -/
def buildContext (model_path requirements_path deployment_id : Str)
    (framework : Str) (use_gpu : Bool) : BuildPlan :=
  { contextFiles :=
      [(strOf "model.pkl", model_path),
       (strOf "requirements.txt", requirements_path),
       (strOf "handler.py", strOf "templates/wrapper.py"),
       (strOf "Dockerfile",
        if use_gpu then strOf "templates/Dockerfile.gpu" else strOf "templates/Dockerfile")],
    imageName := strOf "serveml-" ++ deployment_id ++ strOf ":latest" }

/-! ## Inference adapter (`backend/templates/wrapper.py`) -/

/-- The extension dispatch of the wrapper's `load_model` (wrapper.py lines
33-44). -/
inductive LoadBranch where
  | pickleLoad
  | torchLoad
  | kerasLoad
  | unsupported
  deriving DecidableEq

/-- Which loader `load_model` uses for a given artifact path. -/
def loadBranch (path : Str) : LoadBranch :=
  if endsWithS path (strOf ".pkl") then .pickleLoad
  else if endsWithS path (strOf ".pt") || endsWithS path (strOf ".pth") then .torchLoad
  else if endsWithS path (strOf ".h5") || endsWithS path (strOf ".keras") then .kerasLoad
  else .unsupported

/-- The default artifact path of the wrapper:
`os.environ.get('MODEL_PATH', '/opt/ml/model.pkl')` with `MODEL_PATH`
unset. -/
def defaultModelPath : Str := strOf "/opt/ml/model.pkl"

/-- A caught Python exception: its message (`str(e)`) and its class name
(`type(e).__name__`). -/
structure Exc where
  msg : Str
  ty : Str
  deriving DecidableEq

/-- JSON-like values flowing through the handler (request bodies, payloads,
predictions). -/
inductive JVal where
  | null
  | num (n : Int)
  | str (s : Str)
  | arr (xs : List JVal)
  | obj (fields : List (Str × JVal))

/-- Outcomes of the fallible library calls `lambda_handler` makes, for an
abstract model type `M`: `parseJson` is `json.loads`; `loadFile` is the
framework loader dispatched on the path extension (wrapper.py lines 33-44);
`detect` is `detect_model_type` (total: it inspects the class name, with an
sklearn default); `className` is `type(model).__name__`; `pre`, `post` are
`preprocess_input` / `postprocess_output` given the detected type;
`predictCall` is the `model.predict(x)` / `model(x)` invocation chosen by
the `hasattr` dispatch of lines 161-168; `shapeStr` is the
`str(processed_input.shape)` / `str(len(processed_input))` interpolation. -/
structure HandlerEnv (M : Type) where
  parseJson : Str → Except Exc JVal
  loadFile : Str → Except Exc M
  detect : M → Str
  className : M → Str
  pre : JVal → Str → Except Exc JVal
  predictCall : M → JVal → Except Exc JVal
  post : JVal → Str → Except Exc JVal
  shapeStr : JVal → Str

/-- Shallow embedding of the wrapper's `load_model` (wrapper.py lines
19-53) with its process-local `MODEL_CACHE`: a cache hit returns the cached
model; otherwise the loader runs and, only on success, the model is added to
the cache.  A load failure is re-raised (line 53) and leaves the cache
untouched. -/
def load_model {M : Type} (env : HandlerEnv M) (cache : List (Str × M))
    (path : Str) : Except Exc (M × List (Str × M)) :=
  match cache.lookup path with
  | some m => .ok (m, cache)
  | none =>
      match env.loadFile path with
      | .ok m => .ok (m, (path, m) :: cache)
      | .error e => .error e

/-- Request-body decoding (wrapper.py lines 144-147): take the `body` key if
present (JSON-parsing it when it is a string), else the whole event. -/
def getBody {M : Type} (env : HandlerEnv M) (event : List (Str × JVal)) :
    Except Exc JVal :=
  match event.lookup (strOf "body") with
  | some (.str s) => env.parseJson s
  | some v => .ok v
  | none => .ok (.obj event)

/-- Payload extraction (wrapper.py line 150):
`body.get('data', body.get('input', body))`.  On a non-dict body the `.get`
attribute access raises `AttributeError`, which the handler boundary
catches. -/
def extractData (body : JVal) : Except Exc JVal :=
  match body with
  | .obj fs =>
      .ok ((fs.lookup (strOf "data")).getD ((fs.lookup (strOf "input")).getD (.obj fs)))
  | _ => .error ⟨strOf "object has no attribute get", strOf "AttributeError"⟩

/-- The structured responses `lambda_handler` returns: HTTP 200 with the
prediction payload, or HTTP 500 with `error` = message and `type` =
exception class name (wrapper.py lines 174-186 and 195-205). -/
inductive RBody where
  | success (prediction : JVal) (model_type model_class input_shape : Str)
  | failure (error ty : Str)

/-- A handler response: status code plus structured body. -/
structure HResp where
  statusCode : Nat
  body : RBody

/-- The error response of the handler's `except` clause (wrapper.py lines
195-205). -/
def err500 (e : Exc) : HResp := ⟨500, .failure e.msg e.ty⟩

/-- Shallow embedding of `lambda_handler` (wrapper.py lines 138-205),
threading the process-global `MODEL_CACHE` explicitly.  Every fallible step
is matched on; the first failure short-circuits into the single `except`
boundary, which builds the structured 500 response.  The cache state each
branch returns is exactly the one the Python global holds at that point: a
model loaded by this invocation stays cached even when a later step
fails. -/
def lambda_handler {M : Type} (env : HandlerEnv M) (cache : List (Str × M))
    (event : List (Str × JVal)) : HResp × List (Str × M) :=
  match getBody env event with
  | .error e => (err500 e, cache)
  | .ok body =>
      match extractData body with
      | .error e => (err500 e, cache)
      | .ok inputData =>
          match load_model env cache defaultModelPath with
          | .error e => (err500 e, cache)
          | .ok (model, cache2) =>
              -- model_type := detect_model_type(model), inlined at its uses
              match env.pre inputData (env.detect model) with
              | .error e => (err500 e, cache2)
              | .ok processed =>
                  match env.predictCall model processed with
                  | .error e => (err500 e, cache2)
                  | .ok prediction =>
                      match env.post prediction (env.detect model) with
                      | .error e => (err500 e, cache2)
                      | .ok output =>
                          (⟨200, .success output (env.detect model) (env.className model)
                                   (env.shapeStr processed)⟩, cache2)

/-! ## Concrete objects used by witnesses and counterexamples -/

/-- A loader describing a well-formed 2 KB-scale sklearn artifact: it
unpickles to a classifier with a `predict` method and a declared feature
count of 4. -/
def rfLoader : Loader :=
  { pickleLoad := .ok
      { typeName := strOf "RandomForestClassifier", hasPredictAttr := true,
        nFeaturesIn := some 4, nFeatures := none,
        predictOk := fun _ => true, predictShape := fun _ => [1],
        hasPredictProba := true, hasScore := false },
    torchAvailable := false, torchLoad := .error (strOf "no torch"),
    tfAvailable := false, tfLoad := .error (strOf "no torch") }

/-- A loader whose `torch.load` succeeds with a full (non-state-dict) model
that raises on every probed input shape: deserialization works and the model
is callable, but shape probing never succeeds. -/
def deadPtLoader : Loader :=
  { pickleLoad := .error (strOf "not a pickle"),
    torchAvailable := true,
    torchLoad := .ok
      { typeName := strOf "Net", isStateDict := false,
        forwardOk := fun _ => false, forwardShape := fun _ => [] },
    tfAvailable := false, tfLoad := .error (strOf "no tf") }

/-- Trivial handler environment over a unit model type, for witnesses. -/
def unitHandlerEnv : HandlerEnv Unit :=
  { parseJson := fun _ => .ok .null, loadFile := fun _ => .ok (),
    detect := fun _ => strOf "sklearn", className := fun _ => strOf "object",
    pre := fun v _ => .ok v, predictCall := fun _ v => .ok v,
    post := fun v _ => .ok v, shapeStr := fun _ => strOf "1" }

/-- Metadata of a small already-validated artifact (size 0 so that every
field is a closed literal the kernel can evaluate), as attached to a stored
deployment record in witnesses. -/
def zeroMeta : Metadata :=
  { framework := some (strOf "sklearn"), model_type := some (strOf "M"),
    input_shape := some [4], output_shape := some [1], size_mb := 0,
    errors := [], total_params := none }

/-- A short run that drives one deployment to `active` and then deletes it:
submit, the three background writes, delete. -/
def c3Events : List Event :=
  [.submit (strOf "d1") (strOf "m") (strOf "p.pkl") (strOf "r.txt") 0 zeroMeta true,
   .bgBuilding (strOf "d1"),
   .bgBuildOk (strOf "d1") (strOf "serveml-d1:latest"),
   .bgActivate (strOf "d1"),
   .delDep (strOf "d1")]

/-- The record the run `c3Events.take 4` stores for id `d1`: active with its
endpoint set. -/
def c3ActiveRec : Record :=
  { id := strOf "d1", name := strOf "m", status := .active, created_at := 0,
    model_path := strOf "p.pkl", requirements_path := strOf "r.txt",
    endpoint_url := some (endpointUrl (strOf "d1")), error_message := none,
    model_metadata := zeroMeta, docker_image := some (strOf "serveml-d1:latest") }

/-- A record sitting in status `deploying`, created at time 0, one day plus
one second before the `get` under scrutiny. -/
def c9Record : Record :=
  { id := strOf "d9", name := strOf "m", status := .deploying, created_at := 0,
    model_path := strOf "p.pkl", requirements_path := strOf "r.txt",
    endpoint_url := none, error_message := none,
    model_metadata := zeroMeta, docker_image := some (strOf "serveml-d9:latest") }

/-- A state holding `c9Record` under id `d9`, with its background task
parked between the `deploying` and `active` writes. -/
def c9State : PState :=
  { store := upd (fun _ => none) (strOf "d9") (some c9Record),
    pc := fun x => if x = strOf "d9" then .deployed else .idle,
    dom := [strOf "d9"] }

/-- The record stored by a fresh submission of id `a` in witnesses. -/
def c2Rec : Record :=
  { id := strOf "a", name := strOf "m", status := .validating, created_at := 0,
    model_path := strOf "p.pkl", requirements_path := strOf "r.txt",
    endpoint_url := none, error_message := none,
    model_metadata := zeroMeta, docker_image := none }

/-- Shape invariant tying each id's background program counter to its stored
record: which status the record holds at each pipeline stage and which of
the two outcome fields (`endpoint_url`, `error_message`) can be set. -/
def recInv (pcv : BgPC) : Option Record → Prop
  | none => True
  | some r =>
      match pcv with
      | .idle => False
      | .queued =>
          r.status = .validating ∧ r.endpoint_url = none ∧ r.error_message = none
      | .built =>
          r.status = .building ∧ r.endpoint_url = none ∧ r.error_message = none
      | .deployed =>
          (r.status = .deploying ∧ r.endpoint_url = none ∧ r.error_message = none)
          ∨ (r.status = .active ∧ r.error_message = none)
      | .done =>
          (r.status = .failed ∧ r.endpoint_url = none)
          ∨ (r.status = .active ∧ r.error_message = none)

/-- The record-shape invariant for every id of a state. -/
def recInvAll (s : PState) : Prop := ∀ id, recInv (s.pc id) (s.store id)

/-- History invariant for one id: the observed status history `tr` is
determined by the id's program counter and current record (up to deletion,
which freezes the history). -/
def trInv : BgPC → Option Record → List Status → Prop
  | .idle, r?, tr => r? = none ∧ tr = []
  | .queued, none, tr => tr = [.validating]
  | .queued, some r, tr => r.status = .validating ∧ tr = [.validating]
  | .built, none, tr => tr = [.validating] ∨ tr = [.validating, .building]
  | .built, some r, tr => r.status = .building ∧ tr = [.validating, .building]
  | .deployed, none, tr =>
      tr = [.validating] ∨ tr = [.validating, .building]
      ∨ tr = [.validating, .building, .deploying]
      ∨ tr = [.validating, .building, .deploying, .active]
  | .deployed, some r, tr =>
      (r.status = .deploying ∧ tr = [.validating, .building, .deploying])
      ∨ (r.status = .active ∧ tr = [.validating, .building, .deploying, .active])
  | .done, none, tr => tr ∈ allowedTraces
  | .done, some r, tr =>
      (r.status = .failed ∧ tr = [.validating, .building, .failed])
      ∨ (r.status = .active ∧ tr = [.validating, .building, .deploying, .active])

/-! ## Theorems -/

/-- The size gate of `validate_model` in terms of the byte count: the float
comparison `file_size / (1024 * 1024) > 500` is exact (division by a power
of two) and holds exactly when the file exceeds 524288000 bytes. -/
theorem initMeta_size_gate (n : Nat) :
    ((initMeta n).size_mb > 500) ↔ 524288000 < n := by
  simp only [initMeta, gt_iff_lt,
    lt_div_iff₀ (by norm_num : (0:ℚ) < 1024 * 1024)]
  constructor
  · intro h
    exact_mod_cast h
  · intro h
    exact_mod_cast h

/-- Claim C10: `build_image` stages the artifact in the build context under
the fixed name `model.pkl` and the manifest as `requirements.txt`, for every
framework value and artifact path (the `framework` argument is never read);
the embedded adapter's `load_model` dispatches on the path extension, so the
canonical staged name — and the wrapper's default `MODEL_PATH` — always
select the pickle branch, whatever the validated framework was. -/
theorem buildImage_stages_model_pkl :
    ∀ (mp rp id fw : Str) (gpu : Bool),
      (buildContext mp rp id fw gpu).contextFiles.lookup (strOf "model.pkl") = some mp
      ∧ (buildContext mp rp id fw gpu).contextFiles.lookup (strOf "requirements.txt") = some rp
      ∧ (buildContext mp rp id fw gpu).contextFiles.map Prod.fst =
          [strOf "model.pkl", strOf "requirements.txt", strOf "handler.py", strOf "Dockerfile"]
      ∧ buildContext mp rp id fw gpu = buildContext mp rp id (strOf "pytorch") gpu
      ∧ loadBranch (strOf "model.pkl") = .pickleLoad
      ∧ loadBranch defaultModelPath = .pickleLoad :=
  fun _ _ _ _ _ => ⟨rfl, rfl, rfl, rfl, rfl, rfl⟩

/-- Looking up a previously cached model still succeeds after `load_model`
ran for any path: the cache only ever grows by a key that was previously
absent. -/
theorem load_model_cache_mono {M : Type} (env : HandlerEnv M)
    (cache : List (Str × M)) (path : Str) (m : M) (cache2 : List (Str × M))
    (h : load_model env cache path = .ok (m, cache2)) :
    ∀ k mk, cache.lookup k = some mk → cache2.lookup k = some mk := by
  intro k mk hk
  unfold load_model at h
  cases hcache : cache.lookup path with
  | some m0 =>
      rw [hcache] at h
      simp only [Except.ok.injEq, Prod.mk.injEq] at h
      rw [← h.2]
      exact hk
  | none =>
      rw [hcache] at h
      cases hload : env.loadFile path with
      | error e =>
          rw [hload] at h
          cases h
      | ok m1 =>
          rw [hload] at h
          simp only [Except.ok.injEq, Prod.mk.injEq] at h
          have hne : (k == path) = false := by
            cases hkp : k == path with
            | false => rfl
            | true =>
                rw [show k = path from by simpa using hkp, hcache] at hk
                cases hk
          rw [← h.2]
          simpa [List.lookup, hne] using hk

/-- Claim C8: every failure during request-body decode, payload extraction,
model load, input coercion, prediction, or output coercion is caught at the
handler boundary: `lambda_handler` always returns a structured response —
HTTP 200 with a success body, or HTTP 500 whose body carries the diagnostic
message and the exception class name (`type(e).__name__`) — and every
previously cached model is still cached afterwards, so the warm model cache
remains usable for subsequent invocations. -/
theorem lambda_handler_structured (M : Type) (env : HandlerEnv M)
    (cache : List (Str × M)) (event : List (Str × JVal)) :
    (((lambda_handler env cache event).1.statusCode = 200
        ∧ ∃ out mt mc ish, (lambda_handler env cache event).1.body = RBody.success out mt mc ish)
      ∨ ((lambda_handler env cache event).1.statusCode = 500
        ∧ ∃ e : Exc, (lambda_handler env cache event).1.body = RBody.failure e.msg e.ty))
    ∧ ∀ k mk, cache.lookup k = some mk →
        (lambda_handler env cache event).2.lookup k = some mk := by
  unfold lambda_handler
  split
  · rename_i e heq
    exact ⟨Or.inr ⟨rfl, e, rfl⟩, fun k mk hk => hk⟩
  · split
    · rename_i e heq
      exact ⟨Or.inr ⟨rfl, e, rfl⟩, fun k mk hk => hk⟩
    · split
      · rename_i e heq
        exact ⟨Or.inr ⟨rfl, e, rfl⟩, fun k mk hk => hk⟩
      · rename_i model cache2 heq
        have hmono :=
          load_model_cache_mono env cache defaultModelPath model cache2 heq
        split
        · rename_i e heq2
          exact ⟨Or.inr ⟨rfl, e, rfl⟩, hmono⟩
        · split
          · rename_i e heq2
            exact ⟨Or.inr ⟨rfl, e, rfl⟩, hmono⟩
          · split
            · rename_i e heq2
              exact ⟨Or.inr ⟨rfl, e, rfl⟩, hmono⟩
            · exact ⟨Or.inl ⟨rfl, _, _, _, _, rfl⟩, hmono⟩

/-- Witness for C8 at a concrete input: a warm cache holding the default
model path still holds it after an invocation. -/
theorem lambda_handler_structured_witness :
    (([(defaultModelPath, ())] : List (Str × Unit)).lookup defaultModelPath = some ())
    ∧ (lambda_handler unitHandlerEnv [(defaultModelPath, ())] []).2.lookup
        defaultModelPath = some () :=
  ⟨rfl,
   (lambda_handler_structured Unit unitHandlerEnv [(defaultModelPath, ())] []).2
     defaultModelPath () rfl⟩

/-- Counterexample for claim C7: an artifact named `model.pickle` whose
pickle deserialization yields a classifier with a `predict` method
(`rfLoader`) is rejected, not accepted: the deploy endpoint's extension gate
refuses the filename, and `validate_model` reports an unsupported format
with `framework` unset — `model_path.endswith('.pkl')` is false for
`.pickle`. -/
theorem pickle_ext_rejected_cex :
    deployGateAccepts (strOf "model.pickle") = false
    ∧ (validate_model rfLoader (strOf "model.pickle") 2048).1 = false
    ∧ (validate_model rfLoader (strOf "model.pickle") 2048).2.errors =
        [strOf "Unsupported model format: .pickle"]
    ∧ (validate_model rfLoader (strOf "model.pickle") 2048).2.framework = none := by
  simp only [validate_model, initMeta_size_gate]
  decide

/-- Claim C7 amended: only the `.pkl` extension selects the sklearn branch.
Every artifact path ending in `.pkl`, within the size bound, whose pickle
deserialization yields an object exposing a predict-style method is
classified as sklearn and returned valid; `.pickle` is rejected as an
unsupported format (see the counterexample). -/
theorem pkl_sklearn_accepted (ld : Loader) (m : SkModel) (path : Str) (sz : Nat)
    (hload : ld.pickleLoad = .ok m) (hpred : m.hasPredictAttr = true)
    (hext : endsWithS path (strOf ".pkl") = true) (hsz : sz ≤ 524288000) :
    (validate_model ld path sz).1 = true
    ∧ (validate_model ld path sz).2.framework = some (strOf "sklearn")
    ∧ (validate_model ld path sz).2.errors = [] := by
  have hgate : ¬ ((initMeta sz).size_mb > 500) := by
    rw [initMeta_size_gate]
    omega
  unfold validate_model
  rw [if_neg hgate, if_pos hext]
  unfold validateSk
  rw [hload]
  simp only [hpred, Bool.not_true, Bool.false_eq_true, if_false]
  split
  · split
    · refine ⟨?_, ?_, ?_⟩ <;> trivial
    · refine ⟨?_, ?_, ?_⟩ <;> trivial
  · split
    · refine ⟨?_, ?_, ?_⟩ <;> trivial
    · refine ⟨?_, ?_, ?_⟩ <;> trivial

/-- Witness for the amended C7 at a concrete artifact. -/
theorem pkl_sklearn_accepted_witness :
    (rfLoader.pickleLoad = .ok
        { typeName := strOf "RandomForestClassifier", hasPredictAttr := true,
          nFeaturesIn := some 4, nFeatures := none,
          predictOk := fun _ => true, predictShape := fun _ => [1],
          hasPredictProba := true, hasScore := false }
      ∧ endsWithS (strOf "model.pkl") (strOf ".pkl") = true ∧ 2048 ≤ 524288000)
    ∧ (validate_model rfLoader (strOf "model.pkl") 2048).1 = true :=
  ⟨⟨rfl, by decide, by decide⟩,
   (pkl_sklearn_accepted rfLoader _ (strOf "model.pkl") 2048 rfl rfl (by decide)
      (by decide)).1⟩

/-- Counterexample for claim C6: a PyTorch artifact that deserializes
successfully to a full, callable (non-state-dict) model, but raises on every
probed input shape, is *not* returned as valid: `_validate_pytorch_model`
appends a hard error and fails the validation, so shape-probing failure is
fatal for the pytorch framework (and the probed widths there are its own
fixed shape list, not 4/10/20/100). -/
theorem pytorch_probe_failure_fatal_cex :
    deadPtLoader.torchLoad = .ok
      { typeName := strOf "Net", isStateDict := false,
        forwardOk := fun _ => false, forwardShape := fun _ => [] }
    ∧ (validate_model deadPtLoader (strOf "model.pt") 2048).1 = false
    ∧ (validate_model deadPtLoader (strOf "model.pt") 2048).2.errors =
        [strOf "Could not determine model input shape. Please ensure model accepts standard tensor inputs."] := by
  refine ⟨rfl, ?_⟩
  simp only [validate_model, initMeta_size_gate]
  decide

/-- Claim C6 amended, per framework: (a) sklearn tries declared-feature
introspection (`n_features_in_`) first and keeps it regardless of probing;
(b) with no declared feature count, sklearn probes the widths 4, 10, 20, 100
and records the first that predicts without raising, and validation succeeds
with empty errors even when introspection and every probe fail; (c) for
pytorch, shape inference is *fatal*: a loaded full model failing every probe
in its own candidate list yields a validation failure with errors non-empty;
(d) tensorflow uses introspection only and is non-fatal. -/
theorem shape_inference_amended :
    (∀ (m : SkModel) (sz k : Nat), m.hasPredictAttr = true → m.nFeaturesIn = some k →
      (validateSk (.ok m) (initMeta sz)).1 = true
      ∧ (validateSk (.ok m) (initMeta sz)).2.errors = []
      ∧ (validateSk (.ok m) (initMeta sz)).2.input_shape = some [k])
    ∧ (∀ (m : SkModel) (sz : Nat), m.hasPredictAttr = true →
        m.nFeaturesIn = none → m.nFeatures = none →
      (validateSk (.ok m) (initMeta sz)).1 = true
      ∧ (validateSk (.ok m) (initMeta sz)).2.errors = []
      ∧ (validateSk (.ok m) (initMeta sz)).2.input_shape =
          (skProbeWidths.find? m.predictOk).map (fun k => [k]))
    ∧ (∀ (ld : Loader) (m : PtModel) (sz : Nat), ld.torchAvailable = true →
        ld.torchLoad = .ok m → m.isStateDict = false →
        ptProbeShapes.find? m.forwardOk = none →
      (validatePt ld (initMeta sz)).1 = false
      ∧ (validatePt ld (initMeta sz)).2.errors ≠ [])
    ∧ (∀ (ld : Loader) (m : TfModel) (sz : Nat), ld.tfAvailable = true →
        ld.tfLoad = .ok m →
      (validateTf ld (initMeta sz)).1 = true
      ∧ (validateTf ld (initMeta sz)).2.errors = []
      ∧ (validateTf ld (initMeta sz)).2.input_shape = m.inputShape.map (List.drop 1)) := by
  refine ⟨?_, ?_, ?_, ?_⟩
  · intro m sz k hpred hintro
    unfold validateSk
    simp only [hpred, hintro, Bool.not_true, Bool.false_eq_true, if_false]
    split
    · refine ⟨?_, ?_, ?_⟩ <;> trivial
    · refine ⟨?_, ?_, ?_⟩ <;> trivial
  · intro m sz hpred hin hn
    unfold validateSk
    simp only [hpred, hin, hn, Bool.not_true, Bool.false_eq_true, if_false,
      Option.map_none]
    cases hf : skProbeWidths.find? m.predictOk with
    | some k => simp only [hf]; refine ⟨?_, ?_, ?_⟩ <;> trivial
    | none => simp only [hf]; refine ⟨?_, ?_, ?_⟩ <;> trivial
  · intro ld m sz havail hload hdict hfind
    unfold validatePt
    simp only [havail, hload, hdict, hfind, Bool.not_true, Bool.false_eq_true,
      if_false]
    exact ⟨trivial, by simp [initMeta]⟩
  · intro ld m sz havail hload
    unfold validateTf
    simp only [havail, hload, Bool.not_true, Bool.false_eq_true, if_false]
    refine ⟨?_, ?_, ?_⟩ <;> trivial

/-- Witness for the amended C6 at concrete models for each framework
branch. -/
theorem shape_inference_amended_witness :
    (validateSk (.ok
        { typeName := strOf "M", hasPredictAttr := true, nFeaturesIn := some 4,
          nFeatures := none, predictOk := fun _ => false,
          predictShape := fun _ => [], hasPredictProba := false, hasScore := false })
        (initMeta 10)).2.input_shape = some [4]
    ∧ (validateSk (.ok
        { typeName := strOf "M", hasPredictAttr := true, nFeaturesIn := none,
          nFeatures := none, predictOk := fun n => n == 10,
          predictShape := fun _ => [], hasPredictProba := false, hasScore := false })
        (initMeta 10)).2.input_shape = some [10]
    ∧ (validatePt deadPtLoader (initMeta 10)).1 = false
    ∧ (validateTf
        { pickleLoad := .error [], torchAvailable := false, torchLoad := .error [],
          tfAvailable := true,
          tfLoad := .ok { typeName := strOf "Sequential", inputShape := some [1, 8],
                          outputShape := some [1, 2], countParams := some 5 } }
        (initMeta 10)).1 = true :=
  ⟨(shape_inference_amended.1 _ 10 4 rfl rfl).2.2,
   ((shape_inference_amended.2.1 _ 10 rfl rfl rfl).2.2).trans (by decide),
   (shape_inference_amended.2.2.1 deadPtLoader _ 10 rfl rfl rfl (by decide)).1,
   (shape_inference_amended.2.2.2 _ _ 10 rfl rfl).1⟩

/-- Every orchestrator event only touches the dict entry and program counter
of the id it addresses. -/
theorem stepE_other (s : PState) (e : Event) (x : Str) (hx : x ≠ e.key) :
    (stepE s e).store x = s.store x ∧ (stepE s e).pc x = s.pc x := by
  cases e with
  | submit id name mp rp t md ok =>
      simp only [Event.key] at hx
      simp only [stepE]
      by_cases hpc : s.pc id = BgPC.idle
      · rw [if_pos hpc]
        by_cases hok : ok = true
        · rw [if_pos hok]
          exact ⟨by simp [upd, hx], by simp [upd, hx]⟩
        · rw [if_neg hok]
          exact ⟨rfl, by simp [upd, hx]⟩
      · rw [if_neg hpc]
        exact ⟨rfl, rfl⟩
  | bgBuilding id =>
      simp only [Event.key] at hx
      simp only [stepE]
      repeat' split <;> simp [upd, hx]
  | bgBuildOk id img =>
      simp only [Event.key] at hx
      simp only [stepE]
      repeat' split <;> simp [upd, hx]
  | bgBuildFail id msg =>
      simp only [Event.key] at hx
      simp only [stepE]
      repeat' split <;> simp [upd, hx]
  | bgActivate id =>
      simp only [Event.key] at hx
      simp only [stepE]
      repeat' split <;> simp [upd, hx]
  | getDep id now =>
      simp only [Event.key] at hx
      simp only [stepE]
      repeat' split <;> simp [upd, hx]
  | delDep id =>
      simp only [Event.key] at hx
      simp only [stepE]
      repeat' split <;> simp [upd, hx]

/-- Once an id is finished and absent from the dict, no later event touches
it again: the guards of every code path fail. -/
theorem done_absent_step (s : PState) (e : Event) (id : Str)
    (hpc : s.pc id = .done) (hst : s.store id = none) :
    (stepE s e).pc id = .done ∧ (stepE s e).store id = none := by
  by_cases hk : id = e.key
  · subst hk
    cases e <;> simp_all [stepE, Event.key, upd]
  · have h := stepE_other s e id hk
    rw [h.1, h.2]
    exact ⟨hpc, hst⟩

/-- Iterated version of `done_absent_step` over any event suffix. -/
theorem done_absent_run (es : List Event) (s : PState) (id : Str)
    (hpc : s.pc id = .done) (hst : s.store id = none) :
    (es.foldl stepE s).pc id = .done ∧ (es.foldl stepE s).store id = none := by
  induction es generalizing s with
  | nil => exact ⟨hpc, hst⟩
  | cons e es ih =>
      have h := done_absent_step s e id hpc hst
      exact ih (stepE s e) h.1 h.2

/-- Claim C4: an artifact whose size exceeds 500 MiB (524288000 bytes) is
rejected by the size gate: validation returns invalid with the size error
and `framework` unset, the result is independent of every deserialization
outcome (the gate precedes any load attempt), and the failed submission
stores no record — the id stays finished and absent under every later event
sequence, so its record never exists in any status at all (a fortiori it
never leaves validating). -/
theorem size_gate (ld ld2 : Loader) (path : Str) (sz : Nat)
    (h : 524288000 < sz) :
    (validate_model ld path sz).1 = false
    ∧ (validate_model ld path sz).2.errors = [strOf "Model too large (max 500MB)"]
    ∧ (validate_model ld path sz).2.framework = none
    ∧ validate_model ld path sz = validate_model ld2 path sz
    ∧ (∀ (s : PState) (id name mp rp : Str) (t : Nat) (md : Metadata),
         (stepE s (.submit id name mp rp t md (validate_model ld path sz).1)).store
           = s.store)
    ∧ (∀ (s : PState) (id name mp rp : Str) (t : Nat) (md : Metadata)
         (es : List Event),
         s.pc id = .idle → s.store id = none →
         ((es.foldl stepE
             (stepE s (.submit id name mp rp t md (validate_model ld path sz).1))).store id
            = none)) := by
  have hgate : (initMeta sz).size_mb > 500 := by
    rw [initMeta_size_gate]
    exact h
  have h1 : validate_model ld path sz =
      (false, { initMeta sz with
        errors := (initMeta sz).errors ++ [strOf "Model too large (max 500MB)"] }) := by
    unfold validate_model
    rw [if_pos hgate]
  have h2 : validate_model ld2 path sz =
      (false, { initMeta sz with
        errors := (initMeta sz).errors ++ [strOf "Model too large (max 500MB)"] }) := by
    unfold validate_model
    rw [if_pos hgate]
  refine ⟨by rw [h1], by rw [h1]; rfl, by rw [h1]; rfl, h1.trans h2.symm, ?_, ?_⟩
  · intro s id name mp rp t md
    rw [h1]
    by_cases hpc : s.pc id = .idle <;> simp [stepE, hpc]
  · intro s id name mp rp t md es hidle hnone
    rw [h1]
    have hsub : (stepE s (.submit id name mp rp t md false)).pc id = .done ∧
        (stepE s (.submit id name mp rp t md false)).store id = s.store id := by
      simp [stepE, hidle, upd]
    exact (done_absent_run es _ id hsub.1 (hsub.2.trans hnone)).2

/-- Witness for C4 at a concrete oversized artifact (600 MiB). -/
theorem size_gate_witness :
    524288000 < 629145600
    ∧ (validate_model rfLoader (strOf "model.pkl") 629145600).1 = false :=
  ⟨by norm_num,
   (size_gate rfLoader deadPtLoader (strOf "model.pkl") 629145600 (by norm_num)).1⟩

/-- Counterexample for claim C5: the single manifest line `foo==1.0==2.0`
makes `line.split('==')` return three pieces, so the tuple unpacking
`package, version = line.split('==')` raises `ValueError`; the exception
aborts the loop and `validate_requirements` returns invalid with a hard
error, an empty package list and no warning — the malformed line did not
become a warning and the manifest was not parsed. -/
theorem malformed_line_hard_error_cex :
    (validate_requirements [strOf "foo==1.0==2.0"]).1 = false
    ∧ (validate_requirements [strOf "foo==1.0==2.0"]).2.errors =
        [strOf "Failed to parse requirements: too many values to unpack (expected 2)"]
    ∧ (validate_requirements [strOf "foo==1.0==2.0"]).2.warnings = []
    ∧ (validate_requirements [strOf "foo==1.0==2.0"]).2.packages = [] := by
  decide

/-- The requirements loop adds no error entry when no line contains `==`
more than once. -/
theorem reqLoop_no_err (lines : List Str) (md : ReqMeta)
    (h : ∀ l ∈ lines, (splitOnS (strOf "==") (stripS l)).length ≤ 2) :
    (reqLoop lines md).errors = md.errors := by
  induction lines generalizing md with
  | nil => rfl
  | cons l ls ih =>
      have hl := h l (List.mem_cons_self l ls)
      have hls : ∀ x ∈ ls, (splitOnS (strOf "==") (stripS x)).length ≤ 2 :=
        fun x hx => h x (List.mem_cons_of_mem l hx)
      simp only [reqLoop]
      by_cases h1 : stripS l = [] ∨ startsWithS (stripS l) (strOf "#") = true
      · rw [if_pos h1]
        exact ih md hls
      · rw [if_neg h1]
        by_cases h2 : containsSub (stripS l) (strOf "==") = true
        · rw [if_pos h2]
          have hlen : (splitOnS (strOf "==") (stripS l)).length = 2 := by
            have h2' : 2 ≤ (splitOnS (strOf "==") (stripS l)).length := by
              simpa [containsSub] using h2
            omega
          obtain ⟨a, b, hab⟩ :
              ∃ a b, splitOnS (strOf "==") (stripS l) = [a, b] := by
            cases hsp : splitOnS (strOf "==") (stripS l) with
            | nil => rw [hsp] at hlen; simp at hlen
            | cons a t =>
                cases t with
                | nil => rw [hsp] at hlen; simp at hlen
                | cons b t2 =>
                    cases t2 with
                    | nil => exact ⟨a, b, rfl⟩
                    | cons c t3 => rw [hsp] at hlen; simp at hlen
          rw [hab]
          exact ih _ hls
        · rw [if_neg h2]
          by_cases h3 : (stripS l).contains '>' = true ∨ (stripS l).contains '<' = true
          · rw [if_pos h3]
            exact ih _ hls
          · rw [if_neg h3]
            exact ih _ hls

/-- Claim C5 amended: for a manifest in which no (stripped) line contains
`==` more than once, parsing indeed never fails: warnings are the only
outcome of range-constrained or unpinned lines, and `errors` is non-empty
exactly when the conflicting-package rule (tensorflow together with
tensorflow-gpu) fires.  A line with a repeated `==`, however, aborts parsing
with a hard `Failed to parse requirements` error (see the
counterexample). -/
theorem requirements_parse_amended (lines : List Str)
    (h : ∀ l ∈ lines, (splitOnS (strOf "==") (stripS l)).length ≤ 2) :
    ((validate_requirements lines).1 = true
      ∧ (validate_requirements lines).2.errors = [])
    ∨ ((validate_requirements lines).1 = false
      ∧ (validate_requirements lines).2.errors =
          [strOf "Both tensorflow and tensorflow-gpu specified"]) := by
  have herr : (reqLoop lines ⟨[], [], []⟩).errors = [] :=
    (reqLoop_no_err lines ⟨[], [], []⟩ h).trans rfl
  unfold validate_requirements
  rw [herr, if_pos (show ([] : List Str).isEmpty = true from rfl)]
  unfold conflictCheck
  by_cases hc :
      (((reqLoop lines ⟨[], [], []⟩).packages.map
          (fun p => toLowerS p.name)).contains (strOf "tensorflow")
        && ((reqLoop lines ⟨[], [], []⟩).packages.map
          (fun p => toLowerS p.name)).contains (strOf "tensorflow-gpu")) = true
  · right
    rw [if_pos hc]
    refine ⟨?_, ?_⟩ <;> simp [herr]
  · left
    rw [if_neg hc]
    refine ⟨?_, ?_⟩ <;> simp [herr]

/-- Witness for the amended C5: a manifest pinning both tensorflow variants
parses without a hard error and fails only by the conflict rule. -/
theorem requirements_parse_amended_witness :
    (∀ l ∈ [strOf "tensorflow==1.0", strOf "tensorflow-gpu==1.0"],
      (splitOnS (strOf "==") (stripS l)).length ≤ 2)
    ∧ (((validate_requirements [strOf "tensorflow==1.0", strOf "tensorflow-gpu==1.0"]).1 = true
        ∧ (validate_requirements [strOf "tensorflow==1.0", strOf "tensorflow-gpu==1.0"]).2.errors = [])
      ∨ ((validate_requirements [strOf "tensorflow==1.0", strOf "tensorflow-gpu==1.0"]).1 = false
        ∧ (validate_requirements [strOf "tensorflow==1.0", strOf "tensorflow-gpu==1.0"]).2.errors =
            [strOf "Both tensorflow and tensorflow-gpu specified"])) :=
  ⟨by decide,
   requirements_parse_amended [strOf "tensorflow==1.0", strOf "tensorflow-gpu==1.0"]
     (by decide)⟩

/-- On an absent entry, `get_deployment` answers 404. -/
theorem getDepResult_absent (s : PState) (id : Str) (now : Nat)
    (h : s.store id = none) : getDepResult s id now = none := by
  simp [getDepResult, stepE, h]

/-- Counterexample for claim C9: `get_deployment` tests
`(datetime.utcnow() - created_at).seconds > 30`, and `timedelta.seconds` is
the seconds-within-day component, not the total elapsed seconds.  For a
record in status `deploying` created one day plus one second ago — far more
than 30 wall-clock seconds — the component is 1, so `get` mutates nothing:
the record stays `deploying` with no endpoint, contradicting the claim that
elapsed time over 30 s always triggers the activation. -/
theorem get_thirty_seconds_cex :
    86401 - c9Record.created_at > 30
    ∧ c9Record.status = .deploying
    ∧ (getDepResult c9State (strOf "d9") 86401).map Record.status =
        some Status.deploying
    ∧ (getDepResult c9State (strOf "d9") 86401).map Record.endpoint_url =
        some none := by
  refine ⟨by decide, rfl, ?_, ?_⟩ <;> rfl

/-- Claim C9 amended: `get_deployment` leaves every record unchanged except
in exactly one case: when the record's status is `deploying` and the
seconds component of the elapsed time — `timedelta.seconds`, i.e. the
elapsed whole seconds reduced modulo 86400 — exceeds 30, it sets that
record's status to `active` and its `endpoint_url` to the deployment's
address, touching no other field, no other id, no program counter and not
the key list. -/
theorem getDep_frame (s : PState) (id : Str) (now : Nat) :
    (s.store id = none → stepE s (.getDep id now) = s)
    ∧ (∀ r, s.store id = some r → r.status = .deploying →
        (now - r.created_at) % 86400 > 30 →
        (stepE s (.getDep id now)).store id =
          some { r with status := .active, endpoint_url := some (endpointUrl id) }
        ∧ (stepE s (.getDep id now)).pc = s.pc
        ∧ (stepE s (.getDep id now)).dom = s.dom
        ∧ ∀ x, x ≠ id → (stepE s (.getDep id now)).store x = s.store x)
    ∧ (∀ r, s.store id = some r →
        ¬ (r.status = .deploying ∧ (now - r.created_at) % 86400 > 30) →
        stepE s (.getDep id now) = s) := by
  refine ⟨?_, ?_, ?_⟩
  · intro hnone
    simp [stepE, hnone]
  · intro r hr hst ht
    have hcond : r.status = .deploying ∧ (now - r.created_at) % 86400 > 30 :=
      ⟨hst, ht⟩
    refine ⟨?_, ?_, ?_, ?_⟩
    · simp [stepE, hr, hcond, upd]
    · simp [stepE, hr, hcond]
    · simp [stepE, hr, hcond]
    · intro x hx
      simp [stepE, hr, hcond, upd, hx]
  · intro r hr hcond
    simp [stepE, hr, hcond]

/-- Witness for the amended C9: at 40 s of elapsed time the `deploying`
record is activated in place. -/
theorem getDep_frame_witness :
    (c9State.store (strOf "d9") = some c9Record
      ∧ c9Record.status = .deploying
      ∧ (40 - c9Record.created_at) % 86400 > 30)
    ∧ (stepE c9State (.getDep (strOf "d9") 40)).store (strOf "d9") =
        some { c9Record with status := Status.active, endpoint_url := some (endpointUrl (strOf "d9")) } :=
  ⟨⟨rfl, rfl, by decide⟩,
   ((getDep_frame c9State (strOf "d9") 40).2.1 c9Record rfl rfl (by decide)).1⟩

/-- Counterexample for claim C3: after a deployment reaches `active`,
deleting it removes the dict entry entirely (`del deployments[id]`):
`get` then takes the 404 path instead of returning a `Deleted` audit record,
and the listing is empty. -/
theorem delete_purges_record_cex :
    ((run (c3Events.take 4)).store (strOf "d1")).map Record.status =
        some Status.active
    ∧ (run c3Events).store (strOf "d1") = none
    ∧ (∀ now, getDepResult (run c3Events) (strOf "d1") now = none)
    ∧ (∀ p, p ∈ listDeps (run c3Events) → False) := by
  refine ⟨rfl, rfl, ?_, ?_⟩
  · intro now
    exact getDepResult_absent (run c3Events) (strOf "d1") now rfl
  · intro p hp
    have hdom : (run c3Events).dom = [] := rfl
    simp only [listDeps, List.mem_mergeSort, hdom, List.filterMap_nil,
      List.not_mem_nil] at hp

/-- Claim C3 amended: deleting a stored record (in particular an `Active`
one) removes it from the store entirely: afterwards its entry is gone, `get`
reports not-found rather than returning the record for audit, and the
listing contains no entry for the id. -/
theorem delete_removes_record (s : PState) (id : Str) (r : Record)
    (hr : s.store id = some r) :
    (stepE s (.delDep id)).store id = none
    ∧ (∀ now, getDepResult (stepE s (.delDep id)) id now = none)
    ∧ (∀ p, p ∈ listDeps (stepE s (.delDep id)) → p.1 ≠ id) := by
  have h1 : (stepE s (.delDep id)).store id = none := by
    simp [stepE, hr, upd]
  refine ⟨h1, ?_, ?_⟩
  · intro now
    exact getDepResult_absent _ id now h1
  · intro p hp hpid
    simp only [listDeps, List.mem_mergeSort, List.mem_filterMap] at hp
    obtain ⟨a, ha, hfa⟩ := hp
    cases hsa : (stepE s (.delDep id)).store a with
    | none => rw [hsa] at hfa; cases hfa
    | some ra =>
        rw [hsa] at hfa
        have hpa : (a, ra) = p := by
          simpa using hfa
        have haid : a = id := by
          rw [← hpid, ← hpa]
        rw [haid, h1] at hsa
        cases hsa

/-- Witness for the amended C3 at the concrete active deployment of
`c3Events`. -/
theorem delete_removes_record_witness :
    (run (c3Events.take 4)).store (strOf "d1") = some c3ActiveRec
    ∧ (stepE (run (c3Events.take 4)) (.delDep (strOf "d1"))).store (strOf "d1") =
        none :=
  ⟨rfl,
   (delete_removes_record (run (c3Events.take 4)) (strOf "d1") c3ActiveRec rfl).1⟩

/-- One step preserves the record-shape invariant `recInvAll`. -/
theorem recInvAll_step (s : PState) (e : Event) (h : recInvAll s) :
    recInvAll (stepE s e) := by
  intro x
  by_cases hx : x = e.key
  case neg =>
    have hl := stepE_other s e x hx
    rw [hl.1, hl.2]
    exact h x
  case pos =>
    subst hx
    cases e with
    | submit id name mp rp t md ok =>
        simp only [Event.key]
        by_cases hpc : s.pc id = .idle
        · by_cases hok : ok = true
          · simp [stepE, hpc, hok, upd, recInv]
          · cases hsr : s.store id with
            | none => simp [stepE, hpc, hok, upd, recInv, hsr]
            | some r =>
                have hid := h id
                rw [hpc, hsr] at hid
                simp only [recInv] at hid
        · simp only [stepE, if_neg hpc]
          exact h id
    | bgBuilding id =>
        simp only [Event.key]
        by_cases hpc : s.pc id = .queued
        · cases hsr : s.store id with
          | none => simp [stepE, hpc, upd, recInv, hsr]
          | some r =>
              have hid := h id
              rw [hpc, hsr] at hid
              simp only [recInv] at hid
              simp [stepE, hpc, upd, recInv, hsr, hid.2.1, hid.2.2]
        · simp only [stepE, if_neg hpc]
          exact h id
    | bgBuildOk id img =>
        simp only [Event.key]
        by_cases hpc : s.pc id = .built
        · cases hsr : s.store id with
          | none => simp [stepE, hpc, upd, recInv, hsr]
          | some r =>
              have hid := h id
              rw [hpc, hsr] at hid
              simp only [recInv] at hid
              simp [stepE, hpc, upd, recInv, hsr, hid.2.1, hid.2.2]
        · simp only [stepE, if_neg hpc]
          exact h id
    | bgBuildFail id msg =>
        simp only [Event.key]
        by_cases hpc : s.pc id = .built
        · cases hsr : s.store id with
          | none => simp [stepE, hpc, upd, recInv, hsr]
          | some r =>
              have hid := h id
              rw [hpc, hsr] at hid
              simp only [recInv] at hid
              simp [stepE, hpc, upd, recInv, hsr, hid.2.1]
        · simp only [stepE, if_neg hpc]
          exact h id
    | bgActivate id =>
        simp only [Event.key]
        by_cases hpc : s.pc id = .deployed
        · cases hsr : s.store id with
          | none => simp [stepE, hpc, upd, recInv, hsr]
          | some r =>
              have hid := h id
              rw [hpc, hsr] at hid
              have herrn : r.error_message = none := by
                simp only [recInv] at hid
                rcases hid with h2 | h2
                · exact h2.2.2
                · exact h2.2
              simp [stepE, hpc, upd, recInv, hsr, herrn]
        · simp only [stepE, if_neg hpc]
          exact h id
    | getDep id now =>
        simp only [Event.key]
        cases hsr : s.store id with
        | none =>
            simp only [stepE, hsr]
            have hid := h id
            rw [hsr] at hid
            exact hid
        | some r =>
            by_cases hcond :
                r.status = .deploying ∧ (now - r.created_at) % 86400 > 30
            · have hid := h id
              rw [hsr] at hid
              cases hpc : s.pc id with
              | idle =>
                  rw [hpc] at hid
                  simp only [recInv] at hid
              | queued =>
                  rw [hpc] at hid
                  simp only [recInv] at hid
                  exact absurd (hcond.1.symm.trans hid.1) (by decide)
              | built =>
                  rw [hpc] at hid
                  simp only [recInv] at hid
                  exact absurd (hcond.1.symm.trans hid.1) (by decide)
              | deployed =>
                  rw [hpc] at hid
                  have herrn : r.error_message = none := by
                    simp only [recInv] at hid
                    rcases hid with h2 | h2
                    · exact h2.2.2
                    · exact h2.2
                  have hstep : stepE s (.getDep id now) =
                      { s with store := upd s.store id (some { r with status := .active, endpoint_url := some (endpointUrl id) }) } := by
                    simp [stepE, hsr, hcond]
                  rw [hstep]
                  show recInv (s.pc id)
                    (upd s.store id (some { r with status := .active, endpoint_url := some (endpointUrl id) }) id)
                  rw [hpc]
                  simp only [upd, if_pos rfl]
                  exact Or.inr ⟨rfl, herrn⟩
              | done =>
                  rw [hpc] at hid
                  simp only [recInv] at hid
                  rcases hid with h2 | h2
                  · exact absurd (hcond.1.symm.trans h2.1) (by decide)
                  · exact absurd (hcond.1.symm.trans h2.1) (by decide)
            · simp only [stepE, hsr]
              rw [if_neg hcond]
              exact h id
    | delDep id =>
        simp only [Event.key]
        cases hsr : s.store id with
        | none =>
            simp only [stepE, hsr]
            have hid := h id
            rw [hsr] at hid
            exact hid
        | some r =>
            simp [stepE, hsr, upd, recInv]

/-- The record-shape invariant holds along every run. -/
theorem recInvAll_run (es : List Event) : recInvAll (run es) := by
  have hall : ∀ (l : List Event) (s : PState),
      recInvAll s → recInvAll (l.foldl stepE s) := by
    intro l
    induction l with
    | nil => exact fun s hs => hs
    | cons e l ih => exact fun s hs => ih _ (recInvAll_step s e hs)
  exact hall es initState (fun id => trivial)

/-- Claim C2: at every point of every run, no stored deployment record has
its invocation address (`endpoint_url`) and its failure cause
(`error_message`) simultaneously set: `endpoint_url` is written only by the
activation paths, whose records carry no `error_message`, and
`error_message` only by the failure path, which runs while `endpoint_url` is
still unset. -/
theorem endpoint_error_exclusive (es : List Event) (id : Str) (r : Record)
    (hr : (run es).store id = some r) :
    r.endpoint_url = none ∨ r.error_message = none := by
  have hinv : recInv ((run es).pc id) ((run es).store id) := recInvAll_run es id
  rw [hr] at hinv
  cases hpc : (run es).pc id <;> rw [hpc] at hinv <;> simp only [recInv] at hinv
  · exact Or.inl hinv.2.1
  · exact Or.inl hinv.2.1
  · rcases hinv with h2 | h2
    · exact Or.inl h2.2.1
    · exact Or.inr h2.2
  · rcases hinv with h2 | h2
    · exact Or.inl h2.2
    · exact Or.inr h2.2

/-- Witness for C2 at a concrete one-submission run. -/
theorem endpoint_error_exclusive_witness :
    (run [Event.submit (strOf "a") (strOf "m") (strOf "p.pkl") (strOf "r.txt")
        0 zeroMeta true]).store (strOf "a") = some c2Rec
    ∧ (c2Rec.endpoint_url = none ∨ c2Rec.error_message = none) :=
  ⟨rfl,
   endpoint_error_exclusive
     [Event.submit (strOf "a") (strOf "m") (strOf "p.pkl") (strOf "r.txt")
        0 zeroMeta true] (strOf "a") c2Rec rfl⟩

/-- In every history-invariant configuration with a stored record, the
history ends with the record's current status. -/
theorem trInv_last (pcv : BgPC) (r : Record) (tr : List Status)
    (h : trInv pcv (some r) tr) : tr.getLast? = some r.status := by
  cases pcv <;> simp only [trInv] at h
  · exact absurd h.1 (by simp)
  · rw [h.1, h.2]; rfl
  · rw [h.1, h.2]; rfl
  · rcases h with h2 | h2 <;> rw [h2.1, h2.2] <;> rfl
  · rcases h with h2 | h2 <;> rw [h2.1, h2.2] <;> rfl

/-- Observing an unchanged configuration appends nothing to the history. -/
theorem trInv_obs_same (pcv : BgPC) (r? : Option Record) (tr : List Status)
    (h : trInv pcv r? tr) : obsUpd tr (r?.map Record.status) = tr := by
  cases r? with
  | none => rfl
  | some r =>
      have hlast := trInv_last pcv r tr h
      simp [obsUpd, hlast]

/-- One orchestrator step preserves the history invariant of any id. -/
theorem trInv_step (s : PState) (e : Event) (id : Str) (tr : List Status)
    (h : trInv (s.pc id) (s.store id) tr) :
    trInv ((stepE s e).pc id) ((stepE s e).store id)
      (obsUpd tr (((stepE s e).store id).map Record.status)) := by
  by_cases hx : id = e.key
  case neg =>
    have hl := stepE_other s e id hx
    rw [hl.1, hl.2, trInv_obs_same _ _ _ h]
    exact h
  case pos =>
    subst hx
    cases e with
    | submit id name mp rp t md ok =>
        simp only [Event.key] at h ⊢
        by_cases hpc : s.pc id = .idle
        · have hid := h
          rw [hpc] at hid
          simp only [trInv] at hid
          by_cases hok : ok = true
          · simp [stepE, hpc, hok, upd, hid.2, obsUpd, trInv]
          · simp [stepE, hpc, hok, upd, hid.1, hid.2, obsUpd, trInv,
              allowedTraces]
        · simp only [stepE, if_neg hpc]
          rw [trInv_obs_same _ _ _ h]
          exact h
    | bgBuilding id =>
        simp only [Event.key] at h ⊢
        by_cases hpc : s.pc id = .queued
        · have hid := h
          rw [hpc] at hid
          cases hsr : s.store id with
          | none =>
              rw [hsr] at hid
              simp only [trInv] at hid
              simp [stepE, hpc, upd, hsr, obsUpd, trInv, hid]
          | some r =>
              rw [hsr] at hid
              simp only [trInv] at hid
              simp [stepE, hpc, upd, hsr, obsUpd, trInv, hid.2]
        · simp only [stepE, if_neg hpc]
          rw [trInv_obs_same _ _ _ h]
          exact h
    | bgBuildOk id img =>
        simp only [Event.key] at h ⊢
        by_cases hpc : s.pc id = .built
        · have hid := h
          rw [hpc] at hid
          cases hsr : s.store id with
          | none =>
              rw [hsr] at hid
              simp only [trInv] at hid
              rcases hid with h2 | h2 <;>
                simp [stepE, hpc, upd, hsr, obsUpd, trInv, h2]
          | some r =>
              rw [hsr] at hid
              simp only [trInv] at hid
              simp [stepE, hpc, upd, hsr, obsUpd, trInv, hid.2]
        · simp only [stepE, if_neg hpc]
          rw [trInv_obs_same _ _ _ h]
          exact h
    | bgBuildFail id msg =>
        simp only [Event.key] at h ⊢
        by_cases hpc : s.pc id = .built
        · have hid := h
          rw [hpc] at hid
          cases hsr : s.store id with
          | none =>
              rw [hsr] at hid
              simp only [trInv] at hid
              rcases hid with h2 | h2 <;>
                simp [stepE, hpc, upd, hsr, obsUpd, trInv, h2, allowedTraces]
          | some r =>
              rw [hsr] at hid
              simp only [trInv] at hid
              simp [stepE, hpc, upd, hsr, obsUpd, trInv, hid.2]
        · simp only [stepE, if_neg hpc]
          rw [trInv_obs_same _ _ _ h]
          exact h
    | bgActivate id =>
        simp only [Event.key] at h ⊢
        by_cases hpc : s.pc id = .deployed
        · have hid := h
          rw [hpc] at hid
          cases hsr : s.store id with
          | none =>
              rw [hsr] at hid
              simp only [trInv] at hid
              rcases hid with h2 | h2 | h2 | h2 <;>
                simp [stepE, hpc, upd, hsr, obsUpd, trInv, h2, allowedTraces]
          | some r =>
              rw [hsr] at hid
              simp only [trInv] at hid
              rcases hid with h2 | h2 <;>
                simp [stepE, hpc, upd, hsr, obsUpd, trInv, h2.2]
        · simp only [stepE, if_neg hpc]
          rw [trInv_obs_same _ _ _ h]
          exact h
    | getDep id now =>
        simp only [Event.key] at h ⊢
        cases hsr : s.store id with
        | none =>
            simp only [stepE, hsr, obsUpd]
            have hid := h
            rw [hsr] at hid
            exact hid
        | some r =>
            by_cases hcond :
                r.status = .deploying ∧ (now - r.created_at) % 86400 > 30
            · have hid := h
              rw [hsr] at hid
              cases hpc : s.pc id with
              | idle =>
                  rw [hpc] at hid
                  simp only [trInv] at hid
                  exact absurd hid.1 (by simp)
              | queued =>
                  rw [hpc] at hid
                  simp only [trInv] at hid
                  exact absurd (hcond.1.symm.trans hid.1) (by decide)
              | built =>
                  rw [hpc] at hid
                  simp only [trInv] at hid
                  exact absurd (hcond.1.symm.trans hid.1) (by decide)
              | deployed =>
                  rw [hpc] at hid
                  simp only [trInv] at hid
                  rcases hid with h2 | h2
                  · have hstep : stepE s (.getDep id now) =
                        { s with store := upd s.store id (some { r with status := .active, endpoint_url := some (endpointUrl id) }) } := by
                      simp [stepE, hsr, hcond]
                    rw [hstep]
                    simp [upd, hpc, obsUpd, trInv, h2.2]
                  · exact absurd (hcond.1.symm.trans h2.1) (by decide)
              | done =>
                  rw [hpc] at hid
                  simp only [trInv] at hid
                  rcases hid with h2 | h2 <;>
                    exact absurd (hcond.1.symm.trans h2.1) (by decide)
            · have hstep : stepE s (.getDep id now) = s := by
                simp only [stepE, hsr]
                rw [if_neg hcond]
              rw [hstep, trInv_obs_same _ _ _ h]
              exact h
    | delDep id =>
        simp only [Event.key] at h ⊢
        cases hsr : s.store id with
        | none =>
            simp only [stepE, hsr, obsUpd]
            have hid := h
            rw [hsr] at hid
            exact hid
        | some r =>
            have hid := h
            rw [hsr] at hid
            have hstep : stepE s (.delDep id) =
                { s with store := upd s.store id none, dom := s.dom.erase id } := by
              simp [stepE, hsr]
            rw [hstep]
            simp only [upd, if_pos rfl, Option.map_none, obsUpd]
            cases hpc : s.pc id <;> rw [hpc] at hid <;> simp only [trInv] at hid ⊢
            · exact absurd hid.1 (by simp)
            · exact hid.2
            · exact Or.inr hid.2
            · rcases hid with h2 | h2
              · exact Or.inr (Or.inr (Or.inl h2.2))
              · exact Or.inr (Or.inr (Or.inr h2.2))
            · rcases hid with h2 | h2 <;> rw [h2.2] <;> simp [allowedTraces]

/-- The history invariant holds along every run. -/
theorem runTr_inv (es : List Event) (id : Str) :
    trInv ((runTr es id).1.pc id) ((runTr es id).1.store id) (runTr es id).2 := by
  have hall : ∀ (l : List Event) (p : PState × List Status),
      trInv (p.1.pc id) (p.1.store id) p.2 →
      trInv
        ((l.foldl (fun q e =>
          (stepE q.1 e, obsUpd q.2 (((stepE q.1 e).store id).map Record.status))) p).1.pc id)
        ((l.foldl (fun q e =>
          (stepE q.1 e, obsUpd q.2 (((stepE q.1 e).store id).map Record.status))) p).1.store id)
        ((l.foldl (fun q e =>
          (stepE q.1 e, obsUpd q.2 (((stepE q.1 e).store id).map Record.status))) p).2) := by
    intro l
    induction l with
    | nil => exact fun p hp => hp
    | cons e l ih => exact fun p hp => ih _ (trInv_step p.1 e id p.2 hp)
  exact hall es (initState, []) ⟨rfl, rfl⟩

/-- Every history-invariant history is one of the allowed traces. -/
theorem trInv_allowed (pcv : BgPC) (r? : Option Record) (tr : List Status)
    (h : trInv pcv r? tr) : tr ∈ allowedTraces := by
  cases pcv <;> cases r? <;> simp only [trInv] at h
  · rw [h.2]; simp [allowedTraces]
  · exact absurd h.1 (by simp)
  · rw [h]; simp [allowedTraces]
  · rw [h.2]; simp [allowedTraces]
  · rcases h with h2 | h2 <;> rw [h2] <;> simp [allowedTraces]
  · rw [h.2]; simp [allowedTraces]
  · rcases h with h2 | h2 | h2 | h2 <;> rw [h2] <;> simp [allowedTraces]
  · rcases h with h2 | h2 <;> rw [h2.2] <;> simp [allowedTraces]
  · exact h
  · rcases h with h2 | h2 <;> rw [h2.2] <;> simp [allowedTraces]

/-- Claim C1: along every interleaving of submissions, background stage
writes, polls and deletions, the sequence of distinct consecutive status
values observed on any deployment id's record is one of
`[]`, `[validating]`, `[validating, building]`,
`[validating, building, deploying]`,
`[validating, building, deploying, active]`,
`[validating, building, failed]` — a truncated prefix of the chain
validating → building → deploying → active, optionally ending in failed:
no operation ever moves a status backward or revisits an earlier
non-terminal state.  (In the code, the spec's Submitted stage is atomic
with record creation — records are stored already in `"validating"`;
`"deploying"` is the code's name for the Publishing stage; and deletion
removes the record, ending the observation, rather than storing a
`Deleted` status.) -/
theorem status_trace_monotone :
    ∀ (es : List Event) (id : Str), statusTrace es id ∈ allowedTraces :=
  fun es id => trInv_allowed _ _ _ (runTr_inv es id)

end ServeML
